import Mathlib

/-!
Verification of the file-indexing bot (bot.py, database.py): a shallow
embedding of the record store, the extractor, the dedup/freshness gate,
the backfill walker and the search handler, with theorems settling the
specification claims.

The MongoDB collection `db.files` is modelled as a `List FileInfo`
(insertion order preserved); the unique index on `file_id` makes
`insert_one` a no-op failure when a record with the same id is present,
which `save_file` swallows, so `saveFile` inserts only when the id is
absent.  `find_one` is `List.find?`, `delete_one` removes the first
match.  Timestamps are integers (the datetime normalisation to UTC is an
order-preserving identity in this model).
-/

/-- The four attachment kinds of file_info['type']. -/
inductive FileKind where
  | document
  | video
  | audio
  | photo
deriving DecidableEq, Repr

/-- A stored catalog entry, the dict built in TelegramBot.index_file
(keys: type, name, file_id, size, chat_id, message_id, timestamp,
forwarded).  `name` is Option because message.document.file_name may be
absent. -/
structure FileInfo where
  ftype : FileKind
  name : Option String
  file_id : String
  size : Nat
  chat_id : Int
  message_id : Nat
  timestamp : Int
  forwarded : Bool
deriving DecidableEq, Repr

/-- Database.files.find_one on the file_id key. -/
def findOne (fid : String) (s : List FileInfo) : Option FileInfo :=
  s.find? (fun r => r.file_id == fid)

/-- Database.files.delete_one on the file_id key: removes the first
record carrying that id. -/
def deleteOne (fid : String) : List FileInfo → List FileInfo
  | [] => []
  | r :: rs => if r.file_id == fid then rs else r :: deleteOne fid rs

/-- Database.save_file: insert_one under the unique index on file_id —
the insert raises (and save_file returns False, store unchanged) when a
record with the same id already exists. -/
def saveFile (c : FileInfo) (s : List FileInfo) : List FileInfo :=
  if s.any (fun r => r.file_id == c.file_id) then s else s ++ [c]

/-- Database.get_file_count: count_documents({chat_id: chat}). -/
def getFileCount (chat : Int) (s : List FileInfo) : Nat :=
  (s.filter (fun r => r.chat_id == chat)).length

/-- Outcome of the dedup/freshness decision in index_file. -/
inductive Decision where
  | accept
  | skipDuplicate
  | skipStale
deriving DecidableEq, Repr

/-- The dedup/freshness gate of TelegramBot.index_file (lines 193-216),
acting on an already-extracted file_info.  Direct (not forwarded)
candidates are dropped when any record with the same file_id exists;
forwarded/backfilled candidates are dropped when the existing record's
timestamp is greater or equal, and otherwise replace it
(delete_one followed by save_file). -/
def indexFile (isForwarded : Bool) (c : FileInfo) (s : List FileInfo) :
    Decision × List FileInfo :=
  if !isForwarded then
    match findOne c.file_id s with
    | some _ => (Decision.skipDuplicate, s)
    | none => (Decision.accept, saveFile c s)
  else
    match findOne c.file_id s with
    | some e =>
        if c.timestamp ≤ e.timestamp then (Decision.skipStale, s)
        else (Decision.accept, saveFile c (deleteOne c.file_id s))
    | none => (Decision.accept, saveFile c s)

/-- The store invariant: no two records share a file_id. -/
def UniqueIds (s : List FileInfo) : Prop :=
  (s.map (fun r => r.file_id)).Nodup

instance (s : List FileInfo) : Decidable (UniqueIds s) := by
  unfold UniqueIds; infer_instance

/-- A document, video or audio attachment: file_name (optional),
file_id, file_size. -/
structure Attachment where
  file_name : Option String
  file_id : String
  file_size : Nat
deriving DecidableEq, Repr

/-- One element of the message.photo list (ascending resolution). -/
structure PhotoSize where
  file_id : String
  file_size : Nat
deriving DecidableEq, Repr

/-- A raw transport message, with the fields index_file reads.  An
absent attachment is none; message.photo is falsy exactly when the list
is empty. -/
structure Msg where
  document : Option Attachment
  video : Option Attachment
  audio : Option Attachment
  photo : List PhotoSize
  message_id : Nat
  date : Int
deriving DecidableEq, Repr

/-- Python `x or y` on an optional name: the fallback is used when the
name is absent or the empty string (both falsy). -/
def orElseName (provided : Option String) (fallback : String) : String :=
  match provided with
  | some s => if s == "" then fallback else s
  | none => fallback

/-- TelegramBot.get_file_id: first attachment kind present wins, in the
order document, video, audio, photo; for photo the last (highest
resolution) element's id. -/
def getFileId (m : Msg) : Option String :=
  match m.document with
  | some d => some d.file_id
  | none =>
    match m.video with
    | some v => some v.file_id
    | none =>
      match m.audio with
      | some a => some a.file_id
      | none => m.photo.getLast?.map (fun p => p.file_id)

/-- The file_info construction of TelegramBot.index_file (lines
148-191).  Kinds are examined in the order document, video, audio,
photo.  The document branch stores message.document.file_name as is
(no fallback); video and audio fall back to kind_fileid when the name
is falsy; photo always synthesizes photo_fileid from the last element
of message.photo.  Returns none when no attachment is present
(file_info stays empty and index_file does nothing). -/
def extractFileInfo (m : Msg) (targetChatId : Int) (isForwarded : Bool) :
    Option FileInfo :=
  match m.document with
  | some d =>
      some ⟨FileKind.document, d.file_name, d.file_id, d.file_size,
            targetChatId, m.message_id, m.date, isForwarded⟩
  | none =>
    match m.video with
    | some v =>
        some ⟨FileKind.video, some (orElseName v.file_name ("video_" ++ v.file_id)),
              v.file_id, v.file_size, targetChatId, m.message_id, m.date, isForwarded⟩
    | none =>
      match m.audio with
      | some a =>
          some ⟨FileKind.audio, some (orElseName a.file_name ("audio_" ++ a.file_id)),
                a.file_id, a.file_size, targetChatId, m.message_id, m.date, isForwarded⟩
      | none =>
        match m.photo.getLast? with
        | some p =>
            some ⟨FileKind.photo, some ("photo_" ++ p.file_id),
                  p.file_id, p.file_size, targetChatId, m.message_id, m.date, isForwarded⟩
        | none => none

/-- TelegramBot.index_file as a whole: extraction followed by the
dedup/freshness gate.  When the message has no attachment the store is
untouched and no decision is made. -/
def indexFileMsg (m : Msg) (targetChatId : Int) (isForwarded : Bool)
    (s : List FileInfo) : Option Decision × List FileInfo :=
  match extractFileInfo m targetChatId isForwarded with
  | none => (none, s)
  | some c =>
      let r := indexFile isForwarded c s
      (some r.1, r.2)

/-- The truthiness test of line 286: message.document or message.video
or message.audio or message.photo. -/
def hasMedia (m : Msg) : Bool :=
  m.document.isSome || m.video.isSome || m.audio.isSome || !m.photo.isEmpty

/-- Database.search_files: the Mongo text query wrapped in try/except —
a failing find is swallowed and reported as the empty list. -/
def searchFiles (findResult : Except String (List FileInfo)) : List FileInfo :=
  match findResult with
  | Except.ok files => files
  | Except.error _ => []

/-- The underlying text query of search_files: the text index is on the
name field only (database.py line 13), so a record matches exactly when
its name matches the store's text predicate; there is no condition on
chat_id.  `textMatch` abstracts the external store's text-index
semantics. -/
def filesFind (textMatch : String → Bool) (s : List FileInfo) : List FileInfo :=
  s.filter (fun r =>
    match r.name with
    | some n => textMatch n
    | none => false)

/-- An observable side effect of TelegramBot.handle_search. -/
inductive SearchAction where
  | sendFile (chatId : Int) (f : FileInfo)
  | notifyAdmin (adminId : Int) (text : String)
  | reply (text : String)
deriving DecidableEq, Repr

/-- One entry of get_chat_administrators. -/
structure ChatAdmin where
  userId : Int
  isBot : Bool
deriving DecidableEq, Repr

/-- Python str.strip: removes leading and trailing whitespace. -/
def pyStrip (s : String) : String :=
  ⟨((s.data.dropWhile Char.isWhitespace).reverse.dropWhile
      Char.isWhitespace).reverse⟩

/-- TelegramBot.handle_search: strips the query, returns early when it
is empty, otherwise sends every record search_files produced to the
requesting chat; on an empty result it notifies every non-bot
administrator and replies that nothing was found. -/
def handleSearch (chatId : Int) (text : String) (admins : List ChatAdmin)
    (findResult : Except String (List FileInfo)) : List SearchAction :=
  let query := pyStrip text
  if query == "" then []
  else
    let files := searchFiles findResult
    if files.isEmpty then
      ((admins.filter (fun a => !a.isBot)).map (fun a =>
        SearchAction.notifyAdmin a.userId
          ("File " ++ query ++ " not found in chat " ++ toString chatId)))
      ++ [SearchAction.reply ("No files found matching " ++ query)]
    else
      files.map (fun f => SearchAction.sendFile chatId f)

/-- Outcome of one getMessage fetch in index_previous_files:
a resolved message (data ok with a result), an ok response without a
result (or not ok), a requests.RequestException, or any other
exception (which breaks the loop). -/
inductive FetchOutcome where
  | resolved (m : Msg)
  | noMessage
  | requestError
  | otherError
deriving Repr

/-- max_messages in index_previous_files. -/
def maxMessages : Nat := 100

/-- max_consecutive_failures in index_previous_files. -/
def maxConsecutiveFailures : Nat := 50

/-- Final state of a backfill walk: the store, the walk-scoped
processed_ids set, messages_processed, consecutive_failures, the final
message_id (the frontier) and the ordered list of message ids the walk
attempted to fetch. -/
structure WalkState where
  store : List FileInfo
  pids : List String
  processed : Nat
  failures : Nat
  frontier : Nat
  trace : List Nat
deriving DecidableEq, Repr

/-- TelegramBot.index_previous_files: walks message ids downward from
start_message_id while messages_processed < max_messages, message_id >
0 and consecutive_failures < max_consecutive_failures.  A missing
message or a request error counts one consecutive failure and moves to
the next lower id; a resolved message resets the failure count, is
indexed (provenance forwarded) when it carries media whose file id is
truthy and not yet in processed_ids, and the walk moves on; any other
exception breaks the loop.  No cursor is written anywhere: the only
state is the arguments and the in-memory processed_ids set. -/
def indexPreviousFiles (oracle : Nat → FetchOutcome) (chatId : Int) :
    Nat → Nat → Nat → List FileInfo → List String → List Nat → WalkState
  | 0, processed, failures, store, pids, trace =>
      ⟨store, pids, processed, failures, 0, trace⟩
  | n + 1, processed, failures, store, pids, trace =>
      if processed < maxMessages ∧ failures < maxConsecutiveFailures then
        match oracle (n + 1) with
        | FetchOutcome.noMessage =>
            indexPreviousFiles oracle chatId n (processed + 1) (failures + 1)
              store pids (trace ++ [n + 1])
        | FetchOutcome.requestError =>
            indexPreviousFiles oracle chatId n (processed + 1) (failures + 1)
              store pids (trace ++ [n + 1])
        | FetchOutcome.otherError =>
            ⟨store, pids, processed, failures, n + 1, trace ++ [n + 1]⟩
        | FetchOutcome.resolved m =>
            let next :=
              if hasMedia m then
                match getFileId m with
                | some fid =>
                    if fid ≠ "" ∧ fid ∉ pids then
                      ((indexFileMsg m chatId true store).2, fid :: pids)
                    else (store, pids)
                | none => (store, pids)
              else (store, pids)
            indexPreviousFiles oracle chatId n (processed + 1) 0
              next.1 next.2 (trace ++ [n + 1])
      else ⟨store, pids, processed, failures, n + 1, trace⟩

/-! ### Store lemmas shared by the claim proofs -/

theorem findOne_eq_none_iff {fid : String} {s : List FileInfo} :
    findOne fid s = none ↔ ∀ r ∈ s, r.file_id ≠ fid := by
  simp [findOne, List.find?_eq_none]

theorem saveFile_of_findOne_none {c : FileInfo} {s : List FileInfo}
    (h : findOne c.file_id s = none) : saveFile c s = s ++ [c] := by
  rw [findOne_eq_none_iff] at h
  have hany : s.any (fun r => r.file_id == c.file_id) = false := by
    simp only [List.any_eq_false]
    intro r hr
    simpa using h r hr
  simp [saveFile, hany]

theorem findOne_split {fid : String} {s : List FileInfo} {e : FileInfo}
    (h : findOne fid s = some e) :
    e.file_id = fid ∧
      ∃ l1 l2, s = l1 ++ e :: l2 ∧ (∀ r ∈ l1, r.file_id ≠ fid) ∧
        deleteOne fid s = l1 ++ l2 := by
  induction s with
  | nil => simp [findOne] at h
  | cons r rs ih =>
    by_cases hr : r.file_id = fid
    · have : findOne fid (r :: rs) = some r := by
        simp [findOne, List.find?_cons_of_pos, hr]
      rw [this] at h
      cases h
      refine ⟨hr, [], rs, by simp, by simp, ?_⟩
      simp [deleteOne, hr]
    · have hstep : findOne fid (r :: rs) = findOne fid rs := by
        simp [findOne, List.find?_cons_of_neg, hr]
      rw [hstep] at h
      obtain ⟨he, l1, l2, hs, hl1, hdel⟩ := ih h
      refine ⟨he, r :: l1, l2, by simp [hs], ?_, ?_⟩
      · intro x hx
        rcases List.mem_cons.mp hx with hx | hx
        · simpa [hx] using hr
        · exact hl1 x hx
      · simp [deleteOne, hr, hdel]

theorem findOne_deleteOne_self {fid : String} {s : List FileInfo}
    (hu : UniqueIds s) (e : FileInfo) (h : findOne fid s = some e) :
    findOne fid (deleteOne fid s) = none := by
  obtain ⟨he, l1, l2, hs, hl1, hdel⟩ := findOne_split h
  rw [hdel, findOne_eq_none_iff]
  intro r hr
  rcases List.mem_append.mp hr with hr | hr
  · exact hl1 r hr
  · subst hs
    have : (l1.map (fun r => r.file_id) ++
        e.file_id :: l2.map (fun r => r.file_id)).Nodup := by
      simpa [UniqueIds] using hu
    have hnot : e.file_id ∉ l2.map (fun r => r.file_id) :=
      fun hmem => (List.Nodup.of_append_right this).not_mem hmem
    intro hcontra
    exact hnot (by rw [he, ← hcontra]; exact List.mem_map_of_mem _ hr)

theorem findOne_append_singleton {fid : String} {t : List FileInfo}
    {c : FileInfo} (h : findOne fid t = none) :
    findOne fid (t ++ [c]) = if c.file_id = fid then some c else none := by
  induction t with
  | nil =>
    by_cases hc : c.file_id = fid
    · simp [findOne, List.find?, hc]
    · have hb : (c.file_id == fid) = false := by simpa using hc
      simp [findOne, List.find?, hb, hc]
  | cons r rs ih =>
    have hr : (r.file_id == fid) = false := by
      rw [findOne_eq_none_iff] at h
      simpa using h r (by simp)
    have hrs : findOne fid rs = none := by
      rw [findOne_eq_none_iff] at h ⊢
      intro x hx
      exact h x (by simp [hx])
    simpa [findOne, List.find?, hr] using ih hrs

theorem deleteOne_sublist (fid : String) (s : List FileInfo) :
    (deleteOne fid s).Sublist s := by
  induction s with
  | nil => simp [deleteOne]
  | cons r rs ih =>
    by_cases hr : r.file_id = fid
    · simp only [deleteOne, hr]
      simp
    · simp only [deleteOne]
      rw [if_neg (by simpa using hr)]
      exact ih.cons₂ r

theorem uniqueIds_deleteOne {fid : String} {s : List FileInfo}
    (hu : UniqueIds s) : UniqueIds (deleteOne fid s) :=
  List.Nodup.sublist ((deleteOne_sublist fid s).map _) hu

theorem uniqueIds_saveFile {c : FileInfo} {s : List FileInfo}
    (hu : UniqueIds s) : UniqueIds (saveFile c s) := by
  unfold saveFile
  by_cases hany : s.any (fun r => r.file_id == c.file_id) = true
  · simpa [hany] using hu
  · rw [if_neg (by simpa using hany)]
    have hnot : c.file_id ∉ s.map (fun r => r.file_id) := by
      simp only [List.any_eq_true, beq_iff_eq, not_exists, not_and] at hany
      intro hmem
      obtain ⟨r, hr, hid⟩ := List.mem_map.mp hmem
      exact hany r hr hid
    unfold UniqueIds
    rw [List.map_append, List.nodup_append]
    refine ⟨hu, by simp, ?_⟩
    intro a ha hb
    simp only [List.map_cons, List.map_nil, List.mem_singleton] at hb
    subst hb
    exact hnot ha

theorem uniqueIds_indexFile (isForwarded : Bool) (c : FileInfo)
    {s : List FileInfo} (hu : UniqueIds s) :
    UniqueIds (indexFile isForwarded c s).2 := by
  unfold indexFile
  cases isForwarded with
  | false =>
    cases hf : findOne c.file_id s with
    | some e => simpa [hf] using hu
    | none => simpa [hf] using uniqueIds_saveFile hu
  | true =>
    cases hf : findOne c.file_id s with
    | some e =>
      by_cases hts : c.timestamp ≤ e.timestamp
      · simpa [hf, hts] using hu
      · simpa [hf, hts] using uniqueIds_saveFile (uniqueIds_deleteOne hu)
    | none => simpa [hf] using uniqueIds_saveFile hu

theorem filter_fileId_of_findOne {fid : String} {s : List FileInfo}
    {e : FileInfo} (hu : UniqueIds s) (h : findOne fid s = some e) :
    s.filter (fun r => r.file_id == fid) = [e] := by
  obtain ⟨he, l1, l2, hs, hl1, _⟩ := findOne_split h
  subst hs
  have hnodup : (l1.map (fun r => r.file_id) ++
      e.file_id :: l2.map (fun r => r.file_id)).Nodup := by
    simpa [UniqueIds] using hu
  have hl2 : ∀ r ∈ l2, r.file_id ≠ fid := by
    intro r hr hcontra
    exact (List.Nodup.of_append_right hnodup).not_mem
      (by rw [he, ← hcontra]; exact List.mem_map_of_mem _ hr)
  have hf1 : l1.filter (fun r => r.file_id == fid) = [] := by
    rw [List.filter_eq_nil_iff]
    intro r hr
    simpa using hl1 r hr
  have hf2 : l2.filter (fun r => r.file_id == fid) = [] := by
    rw [List.filter_eq_nil_iff]
    intro r hr
    simpa using hl2 r hr
  simp [List.filter_append, hf1, hf2, List.filter_cons, he]

theorem findOne_eq_none_of_not_mem {fid : String} {s : List FileInfo}
    (h : fid ∉ s.map (fun r => r.file_id)) : findOne fid s = none := by
  rw [findOne_eq_none_iff]
  intro r hr hcontra
  exact h (hcontra ▸ List.mem_map_of_mem _ hr)

/-! ### Walker lemmas -/

theorem indexPreviousFiles_trace_extends (O : Nat → FetchOutcome) (c : Int) :
    ∀ (id p f : Nat) (s : List FileInfo) (pids : List String) (tr : List Nat),
      ∃ rest, (indexPreviousFiles O c id p f s pids tr).trace = tr ++ rest := by
  intro id
  induction id with
  | zero =>
    intro p f s pids tr
    exact ⟨[], by simp [indexPreviousFiles]⟩
  | succ n ih =>
    intro p f s pids tr
    have key : ∀ (a b : Nat) (X : List FileInfo) (Y : List String),
        ∃ rest,
          (indexPreviousFiles O c n a b X Y (tr ++ [n + 1])).trace = tr ++ rest := by
      intro a b X Y
      obtain ⟨r, hr⟩ := ih a b X Y (tr ++ [n + 1])
      exact ⟨[n + 1] ++ r, by rw [hr, List.append_assoc]⟩
    by_cases hg : p < maxMessages ∧ f < maxConsecutiveFailures
    · cases ho : O (n + 1) with
      | noMessage =>
        simp only [indexPreviousFiles, ho, if_pos hg]
        exact key _ _ _ _
      | requestError =>
        simp only [indexPreviousFiles, ho, if_pos hg]
        exact key _ _ _ _
      | otherError =>
        exact ⟨[n + 1], by simp [indexPreviousFiles, ho, if_pos hg]⟩
      | resolved m =>
        simp only [indexPreviousFiles, ho, if_pos hg]
        exact key _ _ _ _
    · exact ⟨[], by simp [indexPreviousFiles, if_neg hg]⟩

theorem indexPreviousFiles_processed_le (O : Nat → FetchOutcome) (c : Int) :
    ∀ (id p f : Nat) (s : List FileInfo) (pids : List String) (tr : List Nat),
      p ≤ maxMessages →
      (indexPreviousFiles O c id p f s pids tr).processed ≤ maxMessages := by
  intro id
  induction id with
  | zero =>
    intro p f s pids tr hp
    simpa [indexPreviousFiles] using hp
  | succ n ih =>
    intro p f s pids tr hp
    by_cases hg : p < maxMessages ∧ f < maxConsecutiveFailures
    · cases ho : O (n + 1) with
      | noMessage =>
        simp only [indexPreviousFiles, ho, if_pos hg]
        exact ih _ _ _ _ _ hg.1
      | requestError =>
        simp only [indexPreviousFiles, ho, if_pos hg]
        exact ih _ _ _ _ _ hg.1
      | otherError =>
        simpa [indexPreviousFiles, ho, if_pos hg] using hp
      | resolved m =>
        simp only [indexPreviousFiles, ho, if_pos hg]
        exact ih _ _ _ _ _ hg.1
    · simpa [indexPreviousFiles, if_neg hg] using hp

/-! ### Concrete records used by the gate claims -/

/-- The stored direct record of the spec scenario: room 42, document
report.pdf, id abc, size 1000, time 100, provenance direct. -/
def recReport : FileInfo :=
  ⟨FileKind.document, some "report.pdf", "abc", 1000, 42, 1, 100, false⟩

/-- The later backfilled candidate of the spec scenario: same id abc,
time 200, provenance backfilled. -/
def candReport : FileInfo :=
  ⟨FileKind.document, some "report.pdf", "abc", 1000, 42, 2, 200, true⟩

/-- A stored backfilled record used by the freshness witness. -/
def recClip : FileInfo :=
  ⟨FileKind.video, some "clip", "vid1", 5, 7, 3, 50, true⟩

/-- A strictly newer backfilled candidate for the same id as recClip. -/
def candClip : FileInfo :=
  ⟨FileKind.video, some "clip", "vid1", 5, 7, 4, 60, true⟩

/-- An audio candidate used by the idempotence witness. -/
def candSong : FileInfo :=
  ⟨FileKind.audio, some "song", "aud1", 9, 8, 4, 70, true⟩

/-- C1 counterexample: on the spec scenario itself (stored direct
record for id abc at time 100, backfilled candidate for abc at time
200) the gate does not answer SkipDuplicate and does not leave the
store unchanged: the candidate is accepted and replaces the direct
record, because index_file compares only timestamps for forwarded
candidates and never consults the stored record's provenance. -/
theorem c1_counterexample :
    (indexFile true candReport [recReport]).1 ≠ Decision.skipDuplicate ∧
    (indexFile true candReport [recReport]).2 ≠ [recReport] ∧
    indexFile true candReport [recReport] = (Decision.accept, [candReport]) := by
  decide

/-- C1 (amended): for every store with unique ids holding a record e
for the candidate's id — of either provenance, including direct — a
backfilled candidate with a strictly later timestamp is accepted and
replaces e: the store afterwards answers the candidate for that id, and
every per-room count is unchanged when the candidate stays in the same
room. -/
theorem c1_backfill_overwrites_direct (c e : FileInfo) (s : List FileInfo)
    (hu : UniqueIds s) (hfind : findOne c.file_id s = some e)
    (hts : e.timestamp < c.timestamp) (hroom : e.chat_id = c.chat_id) :
    (indexFile true c s).1 = Decision.accept ∧
    findOne c.file_id (indexFile true c s).2 = some c ∧
    ∀ room, getFileCount room (indexFile true c s).2 = getFileCount room s := by
  have hstep : indexFile true c s =
      (Decision.accept, saveFile c (deleteOne c.file_id s)) := by
    simp [indexFile, hfind, hts.not_le]
  have hnone := findOne_deleteOne_self hu e hfind
  refine ⟨by rw [hstep], ?_, ?_⟩
  · rw [hstep]
    simp only
    rw [saveFile_of_findOne_none hnone, findOne_append_singleton hnone]
    simp
  · intro room
    obtain ⟨he, l1, l2, hs, hl1, hdel⟩ := findOne_split hfind
    rw [hstep]
    simp only
    rw [saveFile_of_findOne_none hnone, hdel, hs]
    simp only [getFileCount, List.filter_append, List.filter_cons,
      List.length_append, hroom]
    by_cases hc : (c.chat_id == room) = true
    all_goals simp [hc]
    all_goals omega

/-- C1 witness: the amended statement evaluated on the spec scenario
store and candidate. -/
theorem c1_witness :
    (indexFile true candReport [recReport]).1 = Decision.accept ∧
    findOne candReport.file_id (indexFile true candReport [recReport]).2 =
      some candReport ∧
    getFileCount 42 (indexFile true candReport [recReport]).2 =
      getFileCount 42 [recReport] := by
  have h := c1_backfill_overwrites_direct candReport recReport [recReport]
    (by decide) (by decide) (by decide) (by decide)
  exact ⟨h.1, h.2.1, h.2.2 42⟩

/-- C2: starting from the empty store, any sequence of indexing
operations — each a provenance flag and a candidate, in any order —
leaves a store in which no two records share a file id. -/
theorem c2_store_unique_ids (ops : List (Bool × FileInfo)) :
    UniqueIds (ops.foldl (fun s op => (indexFile op.1 op.2 s).2) []) := by
  have aux : ∀ (l : List (Bool × FileInfo)) (s : List FileInfo), UniqueIds s →
      UniqueIds (l.foldl (fun s op => (indexFile op.1 op.2 s).2) s) := by
    intro l
    induction l with
    | nil => intro s hs; simpa using hs
    | cons op rest ih =>
      intro s hs
      simpa [List.foldl_cons] using ih _ (uniqueIds_indexFile op.1 op.2 hs)
  exact aux ops [] (by simp [UniqueIds])

/-- C3: freshness rule for backfilled candidates on a store with
unique ids.  With no record for the candidate's id the candidate is
accepted and appended; with a stored record e it is accepted and
replaces e exactly when its timestamp is strictly later, and is
skipped as stale with the store unchanged when its timestamp is less
than or equal to the stored one. -/
theorem c3_backfill_freshness (c : FileInfo) (s : List FileInfo)
    (hu : UniqueIds s) :
    (findOne c.file_id s = none →
        indexFile true c s = (Decision.accept, s ++ [c])) ∧
    (∀ e, findOne c.file_id s = some e →
        (e.timestamp < c.timestamp →
            (indexFile true c s).1 = Decision.accept ∧
            (indexFile true c s).2 = deleteOne c.file_id s ++ [c] ∧
            findOne c.file_id (indexFile true c s).2 = some c) ∧
        (c.timestamp ≤ e.timestamp →
            indexFile true c s = (Decision.skipStale, s))) := by
  constructor
  · intro hf
    simp [indexFile, hf, saveFile_of_findOne_none hf]
  · intro e hf
    constructor
    · intro hts
      have hstep : indexFile true c s =
          (Decision.accept, saveFile c (deleteOne c.file_id s)) := by
        simp [indexFile, hf, hts.not_le]
      have hnone := findOne_deleteOne_self hu e hf
      refine ⟨by rw [hstep], ?_, ?_⟩
      · rw [hstep]
        simp only
        rw [saveFile_of_findOne_none hnone]
      · rw [hstep]
        simp only
        rw [saveFile_of_findOne_none hnone, findOne_append_singleton hnone]
        simp
    · intro hts
      simp [indexFile, hf, hts]

/-- C3 witness: the freshness rule evaluated on a store holding one
backfilled record and a strictly newer candidate for the same id. -/
theorem c3_witness :
    (indexFile true candClip [recClip]).1 = Decision.accept ∧
    (indexFile true candClip [recClip]).2 =
      deleteOne candClip.file_id [recClip] ++ [candClip] ∧
    findOne candClip.file_id (indexFile true candClip [recClip]).2 =
      some candClip := by
  exact ((c3_backfill_freshness candClip [recClip] (by decide)).2 recClip
    (by decide)).1 (by decide)

theorem indexFile_skipStale_of_le {c d : FileInfo} {t : List FileInfo}
    (hfd : findOne c.file_id t = some d) (hled : c.timestamp ≤ d.timestamp) :
    indexFile true c t = (Decision.skipStale, t) := by
  simp [indexFile, hfd, hled]

/-- C9: indexing the same backfilled candidate twice is idempotent:
the second pass is SkipStale (the candidate's timestamp is not
strictly newer than what the first pass stored), the store is
unchanged by the second pass, and exactly one record with the
candidate's id is stored. -/
theorem c9_backfill_idempotent (c : FileInfo) (s : List FileInfo)
    (hu : UniqueIds s) :
    (indexFile true c (indexFile true c s).2).1 = Decision.skipStale ∧
    (indexFile true c (indexFile true c s).2).2 = (indexFile true c s).2 ∧
    ((indexFile true c s).2.filter (fun r => r.file_id == c.file_id)).length
      = 1 := by
  obtain ⟨d, hfd, hled⟩ : ∃ d,
      findOne c.file_id (indexFile true c s).2 = some d ∧
      c.timestamp ≤ d.timestamp := by
    cases hf : findOne c.file_id s with
    | none =>
      have hstep : indexFile true c s = (Decision.accept, s ++ [c]) := by
        simp [indexFile, hf, saveFile_of_findOne_none hf]
      rw [hstep]
      refine ⟨c, ?_, le_refl _⟩
      simp only
      rw [findOne_append_singleton hf]
      simp
    | some e =>
      by_cases hts : c.timestamp ≤ e.timestamp
      · have hstep : indexFile true c s = (Decision.skipStale, s) := by
          simp [indexFile, hf, hts]
        rw [hstep]
        exact ⟨e, hf, hts⟩
      · have hstep : indexFile true c s =
            (Decision.accept, saveFile c (deleteOne c.file_id s)) := by
          simp [indexFile, hf, hts]
        have hnone := findOne_deleteOne_self hu e hf
        rw [hstep]
        refine ⟨c, ?_, le_refl _⟩
        simp only
        rw [saveFile_of_findOne_none hnone, findOne_append_singleton hnone]
        simp
  have h2 := indexFile_skipStale_of_le hfd hled
  refine ⟨?_, ?_, ?_⟩
  · rw [h2]
  · rw [h2]
  · have hu1 := uniqueIds_indexFile true c hu
    rw [filter_fileId_of_findOne hu1 hfd]
    rfl

/-- C9 witness: the idempotence statement evaluated on the empty store
and a concrete backfilled candidate. -/
theorem c9_witness :
    (indexFile true candSong (indexFile true candSong []).2).1 =
      Decision.skipStale ∧
    (indexFile true candSong (indexFile true candSong []).2).2 =
      (indexFile true candSong []).2 ∧
    ((indexFile true candSong []).2.filter
      (fun r => r.file_id == candSong.file_id)).length = 1 := by
  exact c9_backfill_idempotent candSong [] (by decide)

/-! ### Extractor and search claims -/

/-- A document message whose transport provides no file name. -/
def msgDocNoName : Msg := ⟨some ⟨none, "doc9", 17⟩, none, none, [], 3, 100⟩

/-- A document message with a provided file name. -/
def msgDocNamed : Msg := ⟨some ⟨some "notes.txt", "doc1", 5⟩, none, none, [], 2, 50⟩

/-- C4 counterexample: a document message with no provided file name
yields a candidate whose display name is absent, not the synthesized
string document_fileid — the document branch of index_file has no
fallback, unlike the video and audio branches. -/
theorem c4_counterexample :
    extractFileInfo msgDocNoName 42 false =
      some ⟨FileKind.document, none, "doc9", 17, 42, 3, 100, false⟩ ∧
    (extractFileInfo msgDocNoName 42 false).map (fun fi => fi.name) ≠
      some (some ("document_" ++ "doc9")) := by
  decide

/-- C4 (amended): attachment kinds are examined in the fixed priority
order document, video, audio, photo.  For video and audio the display
name is the provided name when present and non-empty, and the
synthesized kind_fileid otherwise; for document the display name is
the provided name as is, absent when the transport provides none; for
photo the name is always photo_fileid with identifier and size taken
from the last element of the ascending-resolution photo list.  A
message with no attachment yields no candidate. -/
theorem c4_extractor_naming (m : Msg) (chat : Int) (fwd : Bool) :
    (∀ d, m.document = some d →
        extractFileInfo m chat fwd =
          some ⟨FileKind.document, d.file_name, d.file_id, d.file_size,
                chat, m.message_id, m.date, fwd⟩) ∧
    (m.document = none → ∀ v, m.video = some v →
        extractFileInfo m chat fwd =
          some ⟨FileKind.video,
                some (orElseName v.file_name ("video_" ++ v.file_id)),
                v.file_id, v.file_size, chat, m.message_id, m.date, fwd⟩) ∧
    (m.document = none → m.video = none → ∀ a, m.audio = some a →
        extractFileInfo m chat fwd =
          some ⟨FileKind.audio,
                some (orElseName a.file_name ("audio_" ++ a.file_id)),
                a.file_id, a.file_size, chat, m.message_id, m.date, fwd⟩) ∧
    (m.document = none → m.video = none → m.audio = none →
        ∀ p, m.photo.getLast? = some p →
        extractFileInfo m chat fwd =
          some ⟨FileKind.photo, some ("photo_" ++ p.file_id),
                p.file_id, p.file_size, chat, m.message_id, m.date, fwd⟩) ∧
    (m.document = none → m.video = none → m.audio = none → m.photo = [] →
        extractFileInfo m chat fwd = none) ∧
    (∀ fb, orElseName none fb = fb) ∧
    (∀ fb, orElseName (some "") fb = fb) ∧
    (∀ nm fb, nm ≠ "" → orElseName (some nm) fb = nm) := by
  refine ⟨?_, ?_, ?_, ?_, ?_, ?_, ?_, ?_⟩
  · intro d hd
    simp [extractFileInfo, hd]
  · intro hd v hv
    simp [extractFileInfo, hd, hv]
  · intro hd hv a ha
    simp [extractFileInfo, hd, hv, ha]
  · intro hd hv ha p hp
    simp [extractFileInfo, hd, hv, ha, hp]
  · intro hd hv ha hp
    simp [extractFileInfo, hd, hv, ha, hp]
  · intro fb
    rfl
  · intro fb
    rfl
  · intro nm fb hnm
    simp [orElseName, hnm]

/-- C4 witness: the amended naming rule evaluated on a document
message with a provided name. -/
theorem c4_witness :
    extractFileInfo msgDocNamed 7 false =
      some ⟨FileKind.document, some "notes.txt", "doc1", 5, 7, 2, 50, false⟩ := by
  exact (c4_extractor_naming msgDocNamed 7 false).1 ⟨some "notes.txt", "doc1", 5⟩ rfl

/-- A record indexed under room 1, used by the search claims. -/
def recRoom1 : FileInfo := ⟨FileKind.document, some "report", "r1", 10, 1, 5, 100, false⟩

/-- C5 counterexample: a record indexed under room 1 is returned and
re-sent in answer to a search issued in room 2 — search_files queries
the text index only and never restricts by chat_id. -/
theorem c5_counterexample :
    SearchAction.sendFile 2 recRoom1 ∈
      handleSearch 2 "report" []
        (Except.ok (filesFind (fun n => n == "report") [recRoom1])) ∧
    recRoom1.chat_id ≠ 2 := by
  decide

/-- C5 (amended): the query service is not room-scoped: a record is in
the search result exactly when its name matches the text predicate,
regardless of the room it was indexed under, and every matching record
is re-sent to the requesting chat. -/
theorem c5_search_ignores_room :
    (∀ (q : String → Bool) (s : List FileInfo) (r : FileInfo),
        r ∈ filesFind q s ↔
          r ∈ s ∧ ∃ n, r.name = some n ∧ q n = true) ∧
    (∀ (chatId : Int) (text : String) (admins : List ChatAdmin)
        (files : List FileInfo), pyStrip text ≠ "" → files ≠ [] →
        handleSearch chatId text admins (Except.ok files) =
          files.map (fun f => SearchAction.sendFile chatId f)) := by
  constructor
  · intro q s r
    rw [filesFind, List.mem_filter]
    cases hn : r.name with
    | none => simp [hn]
    | some n => simp [hn]
  · intro chatId text admins files htrim hne
    cases files with
    | nil => exact absurd rfl hne
    | cons f fs =>
      simp [handleSearch, searchFiles, htrim]

/-- C5 witness: the amended statement evaluated on a one-record store
from room 1 queried from chat 2. -/
theorem c5_witness :
    handleSearch 2 "report" [] (Except.ok [recRoom1]) =
      [SearchAction.sendFile 2 recRoom1] := by
  simpa using c5_search_ignores_room.2 2 "report" [] [recRoom1]
    (by decide) (by decide)

/-- C10: a store failure during search is indistinguishable from a
miss: search_files swallows the error and returns the empty list, the
handler behaves exactly as on a genuine empty result, and for a
non-empty query the requester is told no files were found while every
non-bot administrator receives the miss notification. -/
theorem c10_search_error_is_miss (chatId : Int) (text : String)
    (admins : List ChatAdmin) (err : String) :
    searchFiles (Except.error err) = [] ∧
    handleSearch chatId text admins (Except.error err) =
      handleSearch chatId text admins (Except.ok []) ∧
    (pyStrip text ≠ "" →
        handleSearch chatId text admins (Except.error err) =
          ((admins.filter (fun a => !a.isBot)).map (fun a =>
            SearchAction.notifyAdmin a.userId
              ("File " ++ pyStrip text ++ " not found in chat " ++ toString chatId)))
          ++ [SearchAction.reply ("No files found matching " ++ pyStrip text)]) := by
  refine ⟨rfl, rfl, ?_⟩
  intro htrim
  simp [handleSearch, searchFiles, htrim]

/-- C10 witness: the error path evaluated on a concrete failing query
with one human administrator. -/
theorem c10_witness :
    searchFiles (Except.error "boom") = [] ∧
    handleSearch 5 "missing" [⟨9, false⟩] (Except.error "boom") =
      handleSearch 5 "missing" [⟨9, false⟩] (Except.ok []) ∧
    handleSearch 5 "missing" [⟨9, false⟩] (Except.error "boom") =
      [SearchAction.notifyAdmin 9
        ("File " ++ pyStrip "missing" ++ " not found in chat " ++ toString (5 : Int)),
       SearchAction.reply ("No files found matching " ++ pyStrip "missing")] := by
  have h := c10_search_error_is_miss 5 "missing" [⟨9, false⟩] "boom"
  refine ⟨h.1, h.2.1, ?_⟩
  have h3 := h.2.2 (by decide)
  simpa using h3

/-! ### Walker claims -/

/-- An oracle resolving every id to a message with no attachment. -/
def oracleNoFiles : Nat → FetchOutcome :=
  fun _ => FetchOutcome.resolved ⟨none, none, none, [], 0, 0⟩

/-- An oracle failing id 5 with a transport error and resolving every
other id to a message with no attachment. -/
def oracleFail5 : Nat → FetchOutcome :=
  fun i => if i = 5 then FetchOutcome.requestError
           else FetchOutcome.resolved ⟨none, none, none, [], 0, 0⟩

/-- An oracle where every fetch raises a transport error. -/
def oracleAllFail : Nat → FetchOutcome :=
  fun _ => FetchOutcome.requestError

/-- C8: every backfill walk is bounded by the processed-message budget,
and the spec scenario holds: over a room whose lowest valid id is 1,
a walk started at anchor 10 (so the walker begins at id 9) with every
lookup succeeding but no message carrying a file completes after
exhausting ids 9 down to 1, with the store unchanged (zero accepted
records), frontier 0 and no failures. -/
theorem c8_walk_termination :
    (∀ (O : Nat → FetchOutcome) (c : Int) (id : Nat) (s : List FileInfo)
        (pids : List String),
        (indexPreviousFiles O c id 0 0 s pids []).processed ≤ maxMessages) ∧
    indexPreviousFiles oracleNoFiles 42 9 0 0 [] [] [] =
      ⟨[], [], 9, 0, 0, [9, 8, 7, 6, 5, 4, 3, 2, 1]⟩ := by
  constructor
  · intro O c id s pids
    exact indexPreviousFiles_processed_le O c id 0 0 s pids [] (Nat.zero_le _)
  · decide

/-- C6 counterexample: a walk from anchor 104 over always-resolving
lookups stops at frontier 4 with the 100-message budget exhausted (an
interrupted walk); invoking the walker again for the same room with
the original anchor re-fetches id 104 first and repeats the identical
descent, instead of resuming at frontier 4 — no cursor was persisted
anywhere. -/
theorem c6_counterexample :
    (indexPreviousFiles oracleNoFiles 42 104 0 0 [] [] []).frontier = 4 ∧
    (indexPreviousFiles oracleNoFiles 42 104 0 0 [] [] []).processed = 100 ∧
    (indexPreviousFiles oracleNoFiles 42 104 0 0
        (indexPreviousFiles oracleNoFiles 42 104 0 0 [] [] []).store []
        []).trace.head? = some 104 ∧
    (indexPreviousFiles oracleNoFiles 42 104 0 0
        (indexPreviousFiles oracleNoFiles 42 104 0 0 [] [] []).store []
        []).trace =
      (indexPreviousFiles oracleNoFiles 42 104 0 0 [] [] []).trace := by
  decide

/-- C6 (amended): the walker persists no cursor: its frontier lives
only in its arguments, and a walk (or restarted walk) begins at
whatever anchor is supplied at that invocation — the first id it
fetches is that anchor — regardless of any earlier walk's store or
in-memory state. -/
theorem c6_no_resume (O : Nat → FetchOutcome) (c : Int) (n : Nat)
    (s : List FileInfo) (pids : List String) :
    (indexPreviousFiles O c (n + 1) 0 0 s pids []).trace.head? =
      some (n + 1) := by
  have hg : 0 < maxMessages ∧ 0 < maxConsecutiveFailures := by decide
  cases ho : O (n + 1) with
  | otherError =>
    simp [indexPreviousFiles, ho, if_pos hg]
  | noMessage =>
    simp only [indexPreviousFiles, ho, if_pos hg, List.nil_append]
    obtain ⟨rest, hr⟩ :=
      indexPreviousFiles_trace_extends O c n 1 1 s pids [n + 1]
    rw [hr]
    rfl
  | requestError =>
    simp only [indexPreviousFiles, ho, if_pos hg, List.nil_append]
    obtain ⟨rest, hr⟩ :=
      indexPreviousFiles_trace_extends O c n 1 1 s pids [n + 1]
    rw [hr]
    rfl
  | resolved m =>
    simp only [indexPreviousFiles, ho, if_pos hg, List.nil_append]
    obtain ⟨rest, hr⟩ :=
      indexPreviousFiles_trace_extends O c n 1 0 _ _ [n + 1]
    rw [hr]
    rfl

/-- C7 counterexample: with id 5 failing transiently and every other
lookup resolving without a file, the walk from anchor 5 fetches id 5
exactly once and moves on — no retry of the same fetch happens; and
with every fetch failing transiently, each single attempt is counted
immediately, so 50 distinct ids exhaust the consecutive-failure
threshold with no id retried. -/
theorem c7_counterexample :
    (indexPreviousFiles oracleFail5 42 5 0 0 [] [] []).trace =
      [5, 4, 3, 2, 1] ∧
    (indexPreviousFiles oracleFail5 42 5 0 0 [] [] []).trace.count 5 = 1 ∧
    (indexPreviousFiles oracleFail5 42 5 0 0 [] [] []).processed = 5 ∧
    indexPreviousFiles oracleAllFail 42 60 0 0 [] [] [] =
      ⟨[], [], 50, 50, 10, (List.range 50).map (fun i => 60 - i)⟩ := by
  decide

/-- C7 (amended): on a transient transport error the walker counts one
consecutive failure immediately and advances to the next lower id
without retrying the failing fetch, pausing only for a fixed delay;
retry never happens, and 50 consecutive failures end the walk. -/
theorem c7_transient_error_skips (O : Nat → FetchOutcome) (c : Int)
    (n p f : Nat) (s : List FileInfo) (pids : List String) (tr : List Nat)
    (hO : O (n + 1) = FetchOutcome.requestError)
    (hp : p < maxMessages) (hf : f < maxConsecutiveFailures) :
    indexPreviousFiles O c (n + 1) p f s pids tr =
      indexPreviousFiles O c n (p + 1) (f + 1) s pids (tr ++ [n + 1]) := by
  simp [indexPreviousFiles, hO, hp, hf]

/-- C7 witness: the amended step rule evaluated on the all-failing
oracle at id 4. -/
theorem c7_witness :
    indexPreviousFiles oracleAllFail 42 4 0 0 [] [] [] =
      indexPreviousFiles oracleAllFail 42 3 1 1 [] [] [4] := by
  exact c7_transient_error_skips oracleAllFail 42 3 0 0 [] [] [] rfl
    (by decide) (by decide)
